import Mathlib

/-!
Verification of the quantization-and-repacking pipeline of
`qllm/model_quantization_base.py` (class `ModelQuantizationBase`).

The file embeds the data model and the operations of the source file:
`pack_model`, `repack_to_new_mode`, `eval_model`, `export_onnx` and `run`.
The bit-packing kernels (`pack_gpu`, `unpack`, the quantizer returned by
`get_quantizer`) live outside the observed source; they are modelled from the
specification's description of quantize/pack/unpack and marked as such in
their doc comments.  Machine reals are modelled as exact rationals.
-/

namespace QLLM

/-- The closed enumeration of packing layouts appearing in the source:
`"GEMM"` (AWQ), `"GPTQ"`, `"ORT"`. -/
inductive PackMode
  | GEMM
  | GPTQ
  | ORT
  deriving DecidableEq, Repr

/-- Number of quantized codes stored in one 32-bit storage word. -/

def wordCap (bits : Nat) : Nat := 32 / bits

/-- Modelled from the spec: the backend-specific ordering of the codes inside
one storage word ("row-major bit-packing vs. a backend-specific interleaved
layout").  GPTQ and ORT store the chunk in row-major order; GEMM (AWQ) stores
an interleaved order, modelled here as chunk reversal (an involution). -/

def permuteChunk : PackMode → List Nat → List Nat
  | .GEMM, c => c.reverse
  | .GPTQ, c => c
  | .ORT, c => c

/-- Modelled from the spec: pack one chunk of codes into a single storage word,
least-significant field first. -/

def wordOfChunk (bits : Nat) : List Nat → Nat
  | [] => 0
  | c :: cs => c + 2 ^ bits * wordOfChunk bits cs

/-- Modelled from the spec: extract `k` bit-fields of width `bits` from one
storage word, least-significant field first. -/

def chunkOfWord (bits : Nat) : Nat → Nat → List Nat
  | 0, _ => []
  | k + 1, w => w % 2 ^ bits :: chunkOfWord bits k (w / 2 ^ bits)

/-- Fuelled worker for `packCodes` (structural recursion on the fuel, which is
instantiated with the length of the code list). -/

def packCodesAux (mode : PackMode) (bits : Nat) : Nat → List Nat → List Nat
  | _, [] => []
  | 0, _ :: _ => []
  | fuel + 1, c :: cs =>
      wordOfChunk bits (permuteChunk mode ((c :: cs).take (wordCap bits))) ::
        packCodesAux mode bits fuel (cs.drop (wordCap bits - 1))

/-- Modelled from the spec: pack a list of quantized integer codes into 32-bit
storage words under the layout of the given pack mode (the `pack_gpu`
collaborator of the packed-layer classes, which is not part of the observed
source). -/

def packCodes (mode : PackMode) (bits : Nat) (codes : List Nat) : List Nat :=
  packCodesAux mode bits codes.length codes

/-- Modelled from the spec: recover the quantized integer codes from the packed
storage words (the `unpack` collaborator of the packed-layer classes, which is
not part of the observed source). -/

def unpackCodes (mode : PackMode) (bits : Nat) (words : List Nat) : List Nat :=
  words.flatMap fun w => permuteChunk mode (chunkOfWord bits (wordCap bits) w)

def qround (x : ℚ) : ℤ := Int.fdiv (2 * x.num + x.den) (2 * x.den)

def clampCode (bits : Nat) (v : ℤ) : Nat := (min (max v 0) (2 ^ bits - 1)).toNat

def groupScale (scales : List ℚ) (groupsize i : Nat) : ℚ :=
  scales.getD (i / groupsize) 1

/-- The zero point of group `i / groupsize`. -/

def groupZero (zeros : List ℤ) (groupsize i : Nat) : ℤ :=
  zeros.getD (i / groupsize) 0

def quantizeWeights (bits : Nat) (scales : List ℚ) (zeros : List ℤ)
    (groupsize : Nat) (ws : List ℚ) : List Nat :=
  ws.enum.map fun p =>
    clampCode bits (qround (p.2 / groupScale scales groupsize p.1) +
      groupZero zeros groupsize p.1)

/-- Modelled from the spec: per-element dequantization
`w = (q - zero_point) * scale` (the dequantization step of the external
`unpack` collaborator). -/

def dequantizeCodes (scales : List ℚ) (zeros : List ℤ) (groupsize : Nat)
    (codes : List Nat) : List ℚ :=
  codes.enum.map fun p =>
    (((p.2 : ℤ) : ℚ) - ((groupZero zeros groupsize p.1 : ℤ) : ℚ)) *
      groupScale scales groupsize p.1

structure PackedLayer where
  bits : Nat
  groupsize : Nat
  infeatures : Nat
  outfeatures : Nat
  hasBias : Bool
  scales : List ℚ
  zeros : List ℤ
  mode : PackMode
  buffer : List Nat
  deriving DecidableEq, Repr

/-- A full-precision linear layer (`torch.nn.Linear` / `ScaledLinear`), its
weight flattened row-major. -/

structure LinearLayer where
  weight : List ℚ
  infeatures : Nat
  outfeatures : Nat
  hasBias : Bool
  deriving DecidableEq, Repr

/-- A node of the model graph: either still full precision or packed. -/

inductive Layer
  | linear (l : LinearLayer)
  | packed (p : PackedLayer)
  deriving DecidableEq, Repr

/-- The opaque quantizer object stored as the first component of each
per-layer tuple produced by the sequential quantizer. -/

structure QuantizerObj where
  id : Nat
  deriving DecidableEq, Repr

/-- One value of the `quantizers` mapping.  Calibration produces the full
per-layer tuple `(quantizer, scale, zero, g_idx, wbits, groupsize)`;
`pack_model` overwrites the entry with only the tuple's first element
(`quantizers[name] = quantizers[name][0]`, src line 84). -/

inductive QuantEntry
  | full (q : QuantizerObj) (scale : List ℚ) (zero : List ℤ)
      (gIdx : Option (List Nat)) (wbits : Nat) (groupsize : Nat)
  | packedRef (q : QuantizerObj)
  deriving DecidableEq, Repr

/-- The quantizer object held by an entry (its first tuple component). -/

def QuantEntry.obj : QuantEntry → QuantizerObj
  | .full q _ _ _ _ _ => q
  | .packedRef q => q

/-- The per-layer bit width recorded by an entry (`value[-2]`). -/

def QuantEntry.wbitsOf : QuantEntry → Nat
  | .full _ _ _ _ w _ => w
  | .packedRef _ => 0

/-- The per-layer group size recorded by an entry (`value[-1]`). -/

def QuantEntry.groupsizeOf : QuantEntry → Nat
  | .full _ _ _ _ _ g => g
  | .packedRef _ => 0

/-- Per-layer entry of the persisted `quant.op.json` document. -/

structure QuantInfoEntry where
  wbits : Nat
  groupsize : Nat
  deriving DecidableEq, Repr

/-- The `quant_info` metadata document (per-layer map plus the method tag). -/

structure QuantInfo where
  perLayer : List (String × QuantInfoEntry)
  method : String
  deriving DecidableEq, Repr

/-- The `quant_config` metadata document (src lines 74-75). -/

structure QuantConfig where
  zero_point : Bool
  q_group_size : Nat
  w_bit : Nat
  version : PackMode
  deriving DecidableEq, Repr

/-- Pack one full-precision linear layer: quantize its weight with the layer's
scales/zero points and pack the codes under the configured mode (the
`pack_gpu` call of src line 93, quantization step modelled from the spec). -/

def packLinear (mode : PackMode) (wbits : Nat) (scale : List ℚ) (zero : List ℤ)
    (groupsize : Nat) (lin : LinearLayer) : PackedLayer :=
  { bits := wbits
    groupsize := groupsize
    infeatures := lin.infeatures
    outfeatures := lin.outfeatures
    hasBias := lin.hasBias
    scales := scale
    zeros := zero
    mode := mode
    buffer := packCodes mode wbits (quantizeWeights wbits scale zero groupsize lin.weight) }

/-- The per-layer replacement step of `pack_model`: a layer whose name has a
(full) quantizers entry is replaced by the packed layer built from its weight
and the entry's parameters; other layers are untouched. -/

def packModelEntry (packMode : PackMode)
    (quantizers : List (String × QuantEntry)) :
    String × Layer → String × Layer
  | (n, l) =>
      match List.lookup n quantizers with
      | some (.full _ scale zero _ wbits gs) =>
          match l with
          | .linear lin =>
              (n, Layer.packed (packLinear packMode wbits scale zero gs lin))
          | .packed p => (n, Layer.packed p)
      | _ => (n, l)

/-- Embeds `pack_model` (src lines 71-95): builds `quant_config` from the
configuration, `quant_info` from the still-full quantizer tuples, replaces
every layer named in `quantizers` by a packed layer of the configured pack
mode, and overwrites each mapping entry of a packed layer with only the
tuple's first element. -/

def pack_model (packMode : PackMode) (groupsizeArg wbitsArg : Nat)
    (method : String) (model : List (String × Layer))
    (quantizers : List (String × QuantEntry)) :
    List (String × Layer) × List (String × QuantEntry) × QuantInfo × QuantConfig :=
  let quant_config : QuantConfig :=
    { zero_point := true, q_group_size := groupsizeArg, w_bit := wbitsArg,
      version := packMode }
  let quant_info : QuantInfo :=
    { perLayer := quantizers.map fun ne =>
        (ne.1, { wbits := ne.2.wbitsOf, groupsize := ne.2.groupsizeOf })
      method := method }
  let model' := model.map (packModelEntry packMode quantizers)
  let quantizers' := quantizers.map fun ne =>
    if (model.map Prod.fst).contains ne.1 then
      match ne.2 with
      | .full q _ _ _ _ _ => (ne.1, QuantEntry.packedRef q)
      | e => (ne.1, e)
    else ne
  (model', quantizers', quant_info, quant_config)

/-- Embeds the per-layer body of `repack_to_new_mode` (src lines 102-108):
unpack the packed buffer to dequantized weights (`qlayer.unpack()`), build a
fresh module of the target mode with the configured bits/groupsize, and pack
it from the dequantized weights under the original scales and zero points
(`new_module.pack_gpu(tmp, scales.T, zeros.T, None)`). -/

def repackLayer (wbitsArg groupsizeArg : Nat) (newMode : PackMode)
    (l : PackedLayer) : PackedLayer :=
  let fpWeight := dequantizeCodes l.scales l.zeros l.groupsize
    (unpackCodes l.mode l.bits l.buffer)
  { l with
      bits := wbitsArg
      groupsize := groupsizeArg
      mode := newMode
      buffer := packCodes newMode wbitsArg
        (quantizeWeights wbitsArg l.scales l.zeros groupsizeArg fpWeight) }

/-- The per-layer step of `repack_to_new_mode`: a layer currently packed under
the source mode with the configured bit width is repacked to the new mode;
other layers are untouched (`find_layers(model, [source_layer])` selects
exactly the packed layers of the source class). -/

def repackEntry (packMode : PackMode) (wbitsArg groupsizeArg : Nat)
    (newMode : PackMode) : String × Layer → String × Layer
  | (n, .packed p) =>
      if p.mode = packMode ∧ p.bits = wbitsArg then
        (n, Layer.packed (repackLayer wbitsArg groupsizeArg newMode p))
      else (n, .packed p)
  | (n, .linear lin) => (n, .linear lin)

/-- Embeds `repack_to_new_mode` (src lines 97-112): every layer currently
packed as `source_layer = select_quant_linear(args.pack_mode, args.wbits)` is
replaced by a layer of the new mode packed from its unpacked weights; all
other layers are untouched. -/

def repack_to_new_mode (model : List (String × Layer)) (packMode : PackMode)
    (wbitsArg groupsizeArg : Nat) (newMode : PackMode) :
    List (String × Layer) :=
  model.map (repackEntry packMode wbitsArg groupsizeArg newMode)

/-- The quantized integer codes held by a layer, when it is packed. -/

def layerCodes : Layer → Option (List Nat)
  | .packed p => some (unpackCodes p.mode p.bits p.buffer)
  | .linear _ => none

def QuantEntry.isFull : QuantEntry → Bool
  | .full _ _ _ _ _ _ => true
  | .packedRef _ => false

/-- C10: `pack_model` overwrites every quantizers entry with only the tuple's
first element (the quantizer object), so the returned mapping no longer
contains the scale, zero-point, group-index, bit-width or group-size
components: every entry of the returned mapping is a bare quantizer object
and none is still a full tuple. -/

inductive Event
  | loadQuant (path : String)
  | loadPretrained (path : String)
  | calibrate
  | pack
  | exportQuantTable (dir : String)
  | saveModel (dir : String)
  | saveTokenizer (dir : String)
  | writeQuantOpJson (file : String)
  | writeQuantConfigJson (file : String)
  | warn (msg : String)
  | repack (src dst : PackMode)
  | generate
  | exportArtifact (path : String)
  | exportTokenizer (path : String)
  | verifyReport (maxAbsErr : ℚ) (passed : Bool)
  | serve
  | saveSafetensors (path : String)
  deriving DecidableEq, Repr

/-- The errors `run` can raise: the mutually-exclusive-source `ValueError`
(the spec's `ConfigError`) and Python's unbound-local error. -/

inductive RunError
  | configError
  | nameError (var : String)
  deriving DecidableEq, Repr

/-- The resolved configuration object handed to `run`.  String-valued options
use `""` for "not specified" (falsy, matching `if args.load:` etc.);
`quant_directory` keeps its explicit `None` default. -/

structure Args where
  model : String
  load : String
  tokenizer : String
  wbits : Nat
  groupsize : Nat
  nearest : Bool
  pack_mode : PackMode
  method : String
  quant_directory : Option String
  observe : Bool
  save : String
  eval : Bool
  export_onnx : String
  use_plugin : Bool
  save_safetensors : String
  deriving DecidableEq, Repr

/-- Embeds `eval_model` (src lines 52-68): when the AWQ inference engine is
missing and the configured pack mode is GEMM, warn once and repack the model
to GPTQ; then run the smoke-test generation.  Returns the emitted events and
the resulting model. -/

def eval_model (hasAwqEngine : Bool) (packMode : PackMode)
    (wbitsArg groupsizeArg : Nat) (model : List (String × Layer)) :
    List Event × List (String × Layer) :=
  if hasAwqEngine = false ∧ packMode = PackMode.GEMM then
    ([Event.warn "AWQ inference engine not found, will convert to GPTQ packing for inference.",
      Event.repack packMode PackMode.GPTQ, Event.generate],
     repack_to_new_mode model packMode wbitsArg groupsizeArg PackMode.GPTQ)
  else
    ([Event.generate], model)

/-- Modelled from the spec: which pack modes have a compatible inference
engine.  The only capability probe in `eval_model` is
`has_awq_inference_engine()`, required exactly by pack mode GEMM; the GPTQ and
ORT kernels ship with the package and are always available. -/

def has_inference_engine (hasAwqEngine : Bool) : PackMode → Bool
  | .GEMM => hasAwqEngine
  | .GPTQ => true
  | .ORT => true

/-- Embeds `export_onnx` (src lines 114-136): repack to ORT when not already
in ORT mode, produce the export artifact and save the tokenizer next to it,
then run the advisory numeric-consistency check, which only prints the
max-abs-error magnitude and whether it is below `1/100`.  `verifyErr` is the
max-abs-error computed by the external onnxruntime comparison. -/

def export_onnx (packMode : PackMode) (wbitsArg groupsizeArg : Nat)
    (onnxPath : String) (model : List (String × Layer)) (verifyErr : ℚ) :
    List Event × List (String × Layer) :=
  let repacked :=
    if packMode = PackMode.ORT then ([], model)
    else ([Event.repack packMode PackMode.ORT],
      repack_to_new_mode model packMode wbitsArg groupsizeArg PackMode.ORT)
  (repacked.1 ++
    [Event.exportArtifact onnxPath, Event.exportTokenizer onnxPath,
     Event.verifyReport verifyErr (decide (verifyErr < 1 / 100))],
   repacked.2)

/-- The quant-table block of `run` (src lines 173-174): `export_quant_table`
is called whenever `quant_directory` is set; when the calibrate-and-pack
branch did not execute, evaluating its `quantizers` argument raises the
unbound-local error before anything is written. -/

def quantTableStage (doQuant : Bool) (args : Args) :
    List Event × Option RunError :=
  match args.quant_directory with
  | none => ([], none)
  | some dir =>
      if doQuant then ([Event.exportQuantTable dir], none)
      else ([], some (RunError.nameError "quantizers"))

/-- The save block of `run` (src lines 176-181): model weights and tokenizer
are persisted first; writing the two metadata documents then needs
`quant_info`/`quant_config`, unbound when the calibrate-and-pack branch did
not execute. -/

def saveStage (doQuant : Bool) (args : Args) : List Event × Option RunError :=
  if args.observe = false ∧ args.save ≠ "" then
    if doQuant then
      ([Event.saveModel args.save, Event.saveTokenizer args.save,
        Event.writeQuantOpJson (args.save ++ "/quant.op.json"),
        Event.writeQuantConfigJson (args.save ++ "/quant_config.json")], none)
    else
      ([Event.saveModel args.save, Event.saveTokenizer args.save],
        some (RunError.nameError "quant_info"))
  else ([], none)

/-- The eval block of `run` (src lines 183-184). -/

def evalStage (hasAwqEngine : Bool) (args : Args)
    (model : List (String × Layer)) : List Event × List (String × Layer) :=
  if args.eval then
    eval_model hasAwqEngine args.pack_mode args.wbits args.groupsize model
  else ([], model)

/-- The export block of `run` (src lines 186-187). -/

def exportStage (args : Args) (model : List (String × Layer))
    (verifyErr : ℚ) : List Event × List (String × Layer) :=
  if args.export_onnx ≠ "" then
    export_onnx args.pack_mode args.wbits args.groupsize args.export_onnx
      model verifyErr
  else ([], model)

/-- The chat-plugin block of `run` (src lines 189-191). -/

def serveStage (args : Args) : List Event :=
  if args.use_plugin then [Event.serve] else []

/-- The safetensors block of `run` (src lines 193-197), executed last. -/

def safetensorsStage (args : Args) : List Event :=
  if args.observe = false ∧ args.save_safetensors ≠ "" then
    [Event.saveSafetensors args.save_safetensors]
  else []

/-- The stages of `run` after LOAD and CALIBRATE+PACK, with the Python
behaviour that an uncaught error stops execution where it occurred. -/

def runStages (hasAwqEngine : Bool) (args : Args)
    (model1 : List (String × Layer)) (doQuant : Bool) (verifyErr : ℚ) :
    List Event × Option RunError :=
  match quantTableStage doQuant args with
  | (qevs, some e) => (qevs, some e)
  | (qevs, none) =>
      match saveStage doQuant args with
      | (sevs, some e) => (qevs ++ sevs, some e)
      | (sevs, none) =>
          let ev := evalStage hasAwqEngine args model1
          let ex := exportStage args ev.2 verifyErr
          (qevs ++ sevs ++ ev.1 ++ ex.1 ++ serveStage args ++
            safetensorsStage args, none)

/-- Embeds `run` (src lines 139-197).  External collaborators are passed in:
`hasAwqEngine` (the capability probe), `freshModel` (the model the pretrained
loader would return), `quantModel` (the model the quantized-checkpoint loader
would return), `calibResult` (the per-layer tuples the sequential quantizer
would produce) and `verifyErr` (the max-abs-error the onnxruntime comparison
would measure).  Returns the event trace and the error the run stops with,
if any. -/

def run (hasAwqEngine : Bool) (freshModel quantModel : List (String × Layer))
    (calibResult : List (String × QuantEntry)) (verifyErr : ℚ) (args : Args) :
    List Event × Option RunError :=
  if args.load = "" ∧ args.model = "" then ([], some RunError.configError)
  else
    let loadEvs := if args.load ≠ "" then [Event.loadQuant args.load]
      else [Event.loadPretrained args.model]
    let model0 := if args.load ≠ "" then quantModel else freshModel
    let doQuant := decide (args.load = "" ∧ args.wbits < 16 ∧ args.nearest = false)
    let quantEvs : List Event :=
      if doQuant then [Event.calibrate, Event.pack] else []
    let model1 := if doQuant then
        (pack_model args.pack_mode args.groupsize args.wbits args.method
          model0 calibResult).1
      else model0
    let rest := runStages hasAwqEngine args model1 doQuant verifyErr
    (loadEvs ++ quantEvs ++ rest.1, rest.2)

/-- The position of each event in the order the code actually executes:
LOAD, CALIBRATE, PACK, quant-table export, the save block, EVAL, EXPORT,
SERVE, and last the safetensors write. -/

def stageRank : Event → Nat
  | .loadQuant _ => 0
  | .loadPretrained _ => 0
  | .calibrate => 1
  | .pack => 2
  | .exportQuantTable _ => 3
  | .saveModel _ => 4
  | .saveTokenizer _ => 4
  | .writeQuantOpJson _ => 4
  | .writeQuantConfigJson _ => 4
  | .warn _ => 5
  | .repack _ _ => 5
  | .generate => 5
  | .exportArtifact _ => 6
  | .exportTokenizer _ => 6
  | .verifyReport _ _ => 6
  | .serve => 7
  | .saveSafetensors _ => 8

/-- The stage order asserted by the spec's pipeline diagram, written from the
spec's words for comparison with the code's order: all persistence of the
SAVE stage (model weights, tokenizer, metadata documents, safetensors,
quantization table) sits in one stage before EVAL, EXPORT and SERVE. -/

def specStageRank : Event → Nat
  | .loadQuant _ => 0
  | .loadPretrained _ => 0
  | .calibrate => 1
  | .pack => 2
  | .exportQuantTable _ => 3
  | .saveModel _ => 3
  | .saveTokenizer _ => 3
  | .writeQuantOpJson _ => 3
  | .writeQuantConfigJson _ => 3
  | .saveSafetensors _ => 3
  | .warn _ => 4
  | .repack _ _ => 4
  | .generate => 4
  | .exportArtifact _ => 5
  | .exportTokenizer _ => 5
  | .verifyReport _ _ => 5
  | .serve => 6

/-- An event list is sorted by execution rank with all ranks in `[lo, hi]`. -/

def RankedIn (lo hi : Nat) (l : List Event) : Prop :=
  l.Pairwise (fun a b => stageRank a ≤ stageRank b) ∧
    ∀ e ∈ l, lo ≤ stageRank e ∧ stageRank e ≤ hi

def Event.isWarn : Event → Bool
  | .warn _ => true
  | _ => false

/-- Classifies the persistence writes of the SAVE stage: model weights,
tokenizer, the two metadata documents, and the safetensors file. -/

def Event.isSaveWrite : Event → Bool
  | .saveModel _ => true
  | .saveTokenizer _ => true
  | .writeQuantOpJson _ => true
  | .writeQuantConfigJson _ => true
  | .saveSafetensors _ => true
  | _ => false

/-- Classifies writes of quantization metadata: the quant table export and the
two metadata documents. -/

def Event.isMetadataWrite : Event → Bool
  | .exportQuantTable _ => true
  | .writeQuantOpJson _ => true
  | .writeQuantConfigJson _ => true
  | _ => false

/-- Classifies the pretrained-source load event. -/

def Event.isLoadPretrained : Event → Bool
  | .loadPretrained _ => true
  | _ => false

def linA : LinearLayer :=
  { weight := [0, 1, 2, 3, 4, 5, 6, 7], infeatures := 8, outfeatures := 1,
    hasBias := false }

/-- A concrete two-layer toy model: second layer weights. -/

def linB : LinearLayer :=
  { weight := [1/2, 1, 3/2, 2, 5/2, 3, 7/2, 4], infeatures := 8,
    outfeatures := 1, hasBias := false }

/-- The concrete two-layer toy model. -/

def modelW : List (String × Layer) :=
  [("a", Layer.linear linA), ("b", Layer.linear linB)]

/-- The concrete per-layer quantizer tuples for the toy model. -/

def quantizersW : List (String × QuantEntry) :=
  [("a", QuantEntry.full ⟨0⟩ [1] [0] none 4 8),
   ("b", QuantEntry.full ⟨1⟩ [1/2] [3] none 4 8)]

/-- Configuration with both a pretrained source and a quantized checkpoint. -/

def argsBoth : Args :=
  { model := "m", load := "q", tokenizer := "", wbits := 4, groupsize := 128,
    nearest := false, pack_mode := PackMode.GPTQ, method := "gptq",
    quant_directory := none, observe := false, save := "", eval := false,
    export_onnx := "", use_plugin := false, save_safetensors := "" }

/-- Configuration loading fresh with nearest-rounding-only mode set. -/

def argsNearest : Args :=
  { model := "m", load := "", tokenizer := "", wbits := 4, groupsize := 128,
    nearest := true, pack_mode := PackMode.GPTQ, method := "gptq",
    quant_directory := none, observe := false, save := "", eval := false,
    export_onnx := "", use_plugin := false, save_safetensors := "" }

/-- Configuration with observe set and a quant directory configured. -/

def argsObserve : Args :=
  { model := "m", load := "", tokenizer := "", wbits := 4, groupsize := 128,
    nearest := false, pack_mode := PackMode.GPTQ, method := "gptq",
    quant_directory := some "qdir", observe := true, save := "", eval := false,
    export_onnx := "", use_plugin := false, save_safetensors := "" }

/-- Configuration with neither model source specified. -/

def argsNone : Args :=
  { model := "", load := "", tokenizer := "", wbits := 4, groupsize := 128,
    nearest := false, pack_mode := PackMode.GPTQ, method := "gptq",
    quant_directory := none, observe := false, save := "", eval := false,
    export_onnx := "", use_plugin := false, save_safetensors := "" }

/-- Configuration with the chat plugin and a safetensors target set. -/

def argsSafet : Args :=
  { model := "", load := "q", tokenizer := "", wbits := 4, groupsize := 128,
    nearest := false, pack_mode := PackMode.GPTQ, method := "gptq",
    quant_directory := none, observe := false, save := "", eval := false,
    export_onnx := "", use_plugin := true, save_safetensors := "st" }

/-- Configuration loading a quantized checkpoint with a quant directory set. -/

def argsQd : Args :=
  { model := "", load := "q", tokenizer := "", wbits := 4, groupsize := 128,
    nearest := false, pack_mode := PackMode.GPTQ, method := "gptq",
    quant_directory := some "qd", observe := false, save := "", eval := false,
    export_onnx := "", use_plugin := false, save_safetensors := "" }

/-- C2 counterexample: with nearest-rounding-only mode configured on a fresh
low-bit load, the run performs its LOAD but neither the CALIBRATE nor the PACK
event occurs, against the claim that PACK still executes with trivial
parameters. -/

theorem permuteChunk_permuteChunk (mode : PackMode) (c : List Nat) :
    permuteChunk mode (permuteChunk mode c) = c := by
  cases mode <;> simp [permuteChunk]

theorem length_permuteChunk (mode : PackMode) (c : List Nat) :
    (permuteChunk mode c).length = c.length := by
  cases mode <;> simp [permuteChunk]

theorem mem_permuteChunk {mode : PackMode} {c : List Nat} {x : Nat} :
    x ∈ permuteChunk mode c ↔ x ∈ c := by
  cases mode <;> simp [permuteChunk]

theorem chunkOfWord_wordOfChunk (bits : Nat) (c : List Nat)
    (h : ∀ x ∈ c, x < 2 ^ bits) :
    chunkOfWord bits c.length (wordOfChunk bits c) = c := by
  induction c with
  | nil => rfl
  | cons x xs ih =>
      have hx : x < 2 ^ bits := h x (List.mem_cons_self _ _)
      have hpos : 0 < 2 ^ bits := Nat.pos_pow_of_pos _ (by norm_num)
      simp only [List.length_cons, wordOfChunk, chunkOfWord]
      rw [Nat.add_mul_mod_self_left, Nat.mod_eq_of_lt hx, Nat.mul_comm,
        Nat.add_mul_div_right _ _ hpos, Nat.div_eq_of_lt hx, Nat.zero_add,
        ih fun y hy => h y (List.mem_cons_of_mem _ hy)]

theorem unpackCodes_packCodesAux (mode : PackMode) (bits : Nat)
    (hcap : 0 < wordCap bits) :
    ∀ (fuel : Nat) (codes : List Nat), codes.length ≤ fuel →
      wordCap bits ∣ codes.length → (∀ x ∈ codes, x < 2 ^ bits) →
      unpackCodes mode bits (packCodesAux mode bits fuel codes) = codes := by
  intro fuel
  induction fuel with
  | zero =>
      intro codes hlen _ _
      interval_cases h : codes.length
      · rw [List.length_eq_zero] at h
        subst h
        rfl
  | succ fuel ih =>
      intro codes hlen hdvd hbound
      match codes with
      | [] => rfl
      | c :: cs =>
          have hlenpos : 0 < (c :: cs).length := by simp
          have hkle : wordCap bits ≤ (c :: cs).length := Nat.le_of_dvd hlenpos hdvd
          have htake : ((c :: cs).take (wordCap bits)).length = wordCap bits := by
            rw [List.length_take]
            exact Nat.min_eq_left hkle
          have hdrop : cs.drop (wordCap bits - 1) = (c :: cs).drop (wordCap bits) := by
            obtain ⟨k, hk⟩ := Nat.exists_eq_add_of_lt hcap
            rw [hk]
            simp [List.drop_succ_cons]
          have hboundtake : ∀ x ∈ permuteChunk mode ((c :: cs).take (wordCap bits)), x < 2 ^ bits := by
            intro x hx
            exact hbound x (List.mem_of_mem_take (mem_permuteChunk.mp hx))
          have hchunk :
              chunkOfWord bits (wordCap bits)
                (wordOfChunk bits (permuteChunk mode ((c :: cs).take (wordCap bits)))) =
                permuteChunk mode ((c :: cs).take (wordCap bits)) := by
            have := chunkOfWord_wordOfChunk bits
              (permuteChunk mode ((c :: cs).take (wordCap bits))) hboundtake
            rwa [length_permuteChunk, htake] at this
          have htail :
              unpackCodes mode bits (packCodesAux mode bits fuel (cs.drop (wordCap bits - 1))) =
                (c :: cs).drop (wordCap bits) := by
            rw [hdrop]
            apply ih
            · rw [List.length_drop]
              omega
            · rw [List.length_drop]
              exact Nat.dvd_sub' hdvd dvd_rfl
            · intro x hx
              exact hbound x (List.mem_of_mem_drop hx)
          simp only [packCodesAux, unpackCodes, List.flatMap_cons]
          rw [hchunk, permuteChunk_permuteChunk]
          show _ ++ unpackCodes mode bits (packCodesAux mode bits fuel _) = _
          rw [htail, List.take_append_drop]

/-- Round trip of the modelled bit-packing: unpacking the packed words under
the same mode recovers the quantized codes exactly. -/

theorem unpackCodes_packCodes (mode : PackMode) (bits : Nat) (codes : List Nat)
    (hcap : 0 < wordCap bits) (hdvd : wordCap bits ∣ codes.length)
    (hbound : ∀ x ∈ codes, x < 2 ^ bits) :
    unpackCodes mode bits (packCodes mode bits codes) = codes :=
  unpackCodes_packCodesAux mode bits hcap codes.length codes le_rfl hdvd hbound

/-- Round-half-up rounding of a rational, computed on the numerator and
denominator (equals the floor of `x + 1/2`). -/

theorem qround_intCast (m : ℤ) : qround (m : ℚ) = m := by
  unfold qround
  rw [Rat.num_intCast, Rat.den_intCast]
  rw [Int.fdiv_eq_ediv _ (by norm_num)]
  omega

/-- Clamp a rounded value into the representable code range `[0, 2^bits - 1]`. -/

theorem clampCode_lt (bits : Nat) (v : ℤ) : clampCode bits v < 2 ^ bits := by
  have h : ((2 ^ bits : ℕ) : ℤ) = (2 : ℤ) ^ bits := by push_cast; ring
  have h1 : 0 < 2 ^ bits := Nat.pos_pow_of_pos _ (by norm_num)
  unfold clampCode
  omega

/-- The scale of group `i / groupsize` (default `1` past the end of the list,
matching a scale tensor shorter than the index range never being hit). -/

theorem groupScale_ne_zero (scales : List ℚ) (groupsize i : Nat)
    (hs : ∀ s ∈ scales, s ≠ 0) : groupScale scales groupsize i ≠ 0 := by
  unfold groupScale
  rcases lt_or_ge (i / groupsize) scales.length with h | h
  · rw [List.getD_eq_getElem _ _ h]
    exact hs _ (List.getElem_mem h)
  · rw [List.getD_eq_default _ _ h]
    norm_num

/-- Modelled from the spec: per-element quantization
`q = clamp(round(w / scale) + zero_point, 0, 2^bits - 1)` with per-group
scale and zero point (the quantization step of the external `pack_gpu`
collaborator). -/

theorem length_quantizeWeights (bits : Nat) (scales : List ℚ) (zeros : List ℤ)
    (groupsize : Nat) (ws : List ℚ) :
    (quantizeWeights bits scales zeros groupsize ws).length = ws.length := by
  simp [quantizeWeights]

theorem mem_quantizeWeights_lt (bits : Nat) (scales : List ℚ) (zeros : List ℤ)
    (groupsize : Nat) (ws : List ℚ) :
    ∀ x ∈ quantizeWeights bits scales zeros groupsize ws, x < 2 ^ bits := by
  intro x hx
  simp only [quantizeWeights, List.mem_map] at hx
  obtain ⟨p, _, hp⟩ := hx
  rw [← hp]
  exact clampCode_lt _ _

/-- Re-quantizing an exactly dequantized code recovers the code: with a nonzero
scale, `clamp(round(((q - z) * s) / s) + z) = q` for `q < 2^bits`. -/

theorem requantize_exact (bits : Nat) (s : ℚ) (z : ℤ) (q : Nat)
    (hs : s ≠ 0) (hq : q < 2 ^ bits) :
    clampCode bits (qround ((((q : ℤ) : ℚ) - (z : ℚ)) * s / s) + z) = q := by
  rw [mul_div_cancel_right₀ _ hs]
  have hcast : (((q : ℤ) : ℚ) - (z : ℚ)) = (((q : ℤ) - z : ℤ) : ℚ) := by
    push_cast
    ring
  rw [hcast, qround_intCast]
  have h2 : (q : ℤ) < 2 ^ bits := by exact_mod_cast hq
  have h2' : (0 : ℤ) < 2 ^ bits := by positivity
  unfold clampCode
  omega

/-- Quantizing the dequantization of in-range codes under the same scales,
zero points and grouping reproduces the codes exactly (no requantization
drift). -/

theorem quantize_dequantize (bits : Nat) (scales : List ℚ) (zeros : List ℤ)
    (groupsize : Nat) (codes : List Nat)
    (hs : ∀ s ∈ scales, s ≠ 0) (hbound : ∀ x ∈ codes, x < 2 ^ bits) :
    quantizeWeights bits scales zeros groupsize
      (dequantizeCodes scales zeros groupsize codes) = codes := by
  apply List.ext_getElem
  · simp [quantizeWeights, dequantizeCodes]
  · intro n h1 h2
    have hn : n < codes.length := h2
    have hnd : n < (dequantizeCodes scales zeros groupsize codes).length := by
      simp [dequantizeCodes]
      exact hn
    simp only [quantizeWeights, dequantizeCodes, List.getElem_map,
      List.getElem_enum]
    exact requantize_exact bits _ _ _
      (groupScale_ne_zero scales groupsize n hs)
      (hbound _ (List.getElem_mem hn))

/-- A packed low-bit linear layer (the quant-linear module classes selected by
`select_quant_linear`): bit width, group size, shape, per-group scales and zero
points, the pack mode and the packed weight buffer. -/

theorem mem_of_lookup_eq_some {β : Type} {l : List (String × β)} {k : String}
    {v : β} (h : List.lookup k l = some v) : (k, v) ∈ l := by
  induction l with
  | nil => simp [List.lookup] at h
  | cons p t ih =>
      rw [List.lookup] at h
      by_cases hk : k = p.1
      · have hb : (k == p.1) = true := beq_iff_eq.mpr hk
        rw [hb] at h
        injection h with h
        have hkv : (k, v) = p := by
          rw [hk, ← h]
        rw [hkv]
        exact List.mem_cons_self _ _
      · have hb : (k == p.1) = false := beq_eq_false_iff_ne.mpr hk
        rw [hb] at h
        exact List.mem_cons_of_mem _ (ih h)

/-- Repacking a layer whose buffer holds well-formed codes replaces only the
mode and the buffer: the codes survive unchanged (no requantization). -/

theorem repackLayer_eq (newMode : PackMode) (p : PackedLayer) (codes : List Nat)
    (hcap : 0 < wordCap p.bits)
    (hs : ∀ s ∈ p.scales, s ≠ 0)
    (hdvd : wordCap p.bits ∣ codes.length)
    (hbound : ∀ x ∈ codes, x < 2 ^ p.bits)
    (hbuf : p.buffer = packCodes p.mode p.bits codes) :
    repackLayer p.bits p.groupsize newMode p =
      { p with mode := newMode, buffer := packCodes newMode p.bits codes } := by
  simp only [repackLayer]
  rw [hbuf, unpackCodes_packCodes p.mode p.bits codes hcap hdvd hbound,
    quantize_dequantize p.bits p.scales p.zeros p.groupsize codes hs hbound]

theorem layerCodes_repackLayer (newMode : PackMode) (p : PackedLayer)
    (codes : List Nat)
    (hcap : 0 < wordCap p.bits)
    (hs : ∀ s ∈ p.scales, s ≠ 0)
    (hdvd : wordCap p.bits ∣ codes.length)
    (hbound : ∀ x ∈ codes, x < 2 ^ p.bits)
    (hbuf : p.buffer = packCodes p.mode p.bits codes) :
    layerCodes (Layer.packed (repackLayer p.bits p.groupsize newMode p)) =
      layerCodes (Layer.packed p) := by
  rw [repackLayer_eq newMode p codes hcap hs hdvd hbound hbuf]
  show some (unpackCodes newMode p.bits (packCodes newMode p.bits codes)) =
    some (unpackCodes p.mode p.bits p.buffer)
  rw [unpackCodes_packCodes newMode p.bits codes hcap hdvd hbound, hbuf,
    unpackCodes_packCodes p.mode p.bits codes hcap hdvd hbound]

theorem repackEntry_packed_hit (packMode : PackMode)
    (wbitsArg groupsizeArg : Nat) (newMode : PackMode) (n : String)
    (p : PackedLayer) (h1 : p.mode = packMode) (h2 : p.bits = wbitsArg) :
    repackEntry packMode wbitsArg groupsizeArg newMode (n, Layer.packed p) =
      (n, Layer.packed (repackLayer wbitsArg groupsizeArg newMode p)) := by
  simp only [repackEntry]
  rw [if_pos (And.intro h1 h2)]

theorem packModelEntry_none (packMode : PackMode)
    (quantizers : List (String × QuantEntry)) (n : String) (l : Layer)
    (h : List.lookup n quantizers = none) :
    packModelEntry packMode quantizers (n, l) = (n, l) := by
  simp only [packModelEntry]
  rw [h]

theorem packModelEntry_full (packMode : PackMode)
    (quantizers : List (String × QuantEntry)) (n : String) (lin : LinearLayer)
    (q : QuantizerObj) (s : List ℚ) (z : List ℤ) (g : Option (List Nat))
    (w gs : Nat)
    (h : List.lookup n quantizers = some (QuantEntry.full q s z g w gs)) :
    packModelEntry packMode quantizers (n, Layer.linear lin) =
      (n, Layer.packed (packLinear packMode w s z gs lin)) := by
  simp only [packModelEntry]
  rw [h]

/-- Round trip of a single freshly packed layer through two repacks, plus
preservation of its quantized codes after one repack. -/

theorem packed_roundtrip_at (packMode mode2 : PackMode)
    (wbitsArg groupsizeArg : Nat) (s : List ℚ) (z : List ℤ) (lin : LinearLayer)
    (hcap : 0 < wordCap wbitsArg) (hs : ∀ x ∈ s, x ≠ 0)
    (hdvd : wordCap wbitsArg ∣ lin.weight.length) :
    repackLayer wbitsArg groupsizeArg packMode
        (repackLayer wbitsArg groupsizeArg mode2
          (packLinear packMode wbitsArg s z groupsizeArg lin)) =
      packLinear packMode wbitsArg s z groupsizeArg lin ∧
    layerCodes (Layer.packed (repackLayer wbitsArg groupsizeArg mode2
        (packLinear packMode wbitsArg s z groupsizeArg lin))) =
      layerCodes (Layer.packed (packLinear packMode wbitsArg s z groupsizeArg lin)) := by
  have hdvd' : wordCap wbitsArg ∣
      (quantizeWeights wbitsArg s z groupsizeArg lin.weight).length := by
    rw [length_quantizeWeights]
    exact hdvd
  have hbound := mem_quantizeWeights_lt wbitsArg s z groupsizeArg lin.weight
  have h1 : repackLayer wbitsArg groupsizeArg mode2
      (packLinear packMode wbitsArg s z groupsizeArg lin) =
        { packLinear packMode wbitsArg s z groupsizeArg lin with
            mode := mode2
            buffer := packCodes mode2 wbitsArg
              (quantizeWeights wbitsArg s z groupsizeArg lin.weight) } :=
    repackLayer_eq mode2 (packLinear packMode wbitsArg s z groupsizeArg lin)
      (quantizeWeights wbitsArg s z groupsizeArg lin.weight) hcap hs hdvd' hbound rfl
  constructor
  · rw [h1]
    have h2 : repackLayer wbitsArg groupsizeArg packMode
        ({ packLinear packMode wbitsArg s z groupsizeArg lin with
            mode := mode2
            buffer := packCodes mode2 wbitsArg
              (quantizeWeights wbitsArg s z groupsizeArg lin.weight) }) =
          packLinear packMode wbitsArg s z groupsizeArg lin :=
      repackLayer_eq packMode
        ({ packLinear packMode wbitsArg s z groupsizeArg lin with
            mode := mode2
            buffer := packCodes mode2 wbitsArg
              (quantizeWeights wbitsArg s z groupsizeArg lin.weight) })
        (quantizeWeights wbitsArg s z groupsizeArg lin.weight) hcap hs hdvd' hbound rfl
    exact h2
  · exact layerCodes_repackLayer mode2
      (packLinear packMode wbitsArg s z groupsizeArg lin)
      (quantizeWeights wbitsArg s z groupsizeArg lin.weight) hcap hs hdvd' hbound rfl

/-- C1: for every model containing packed layers, `repack_to_new_mode`
preserves the set of quantized values exactly (no requantization), only the
storage layout changes; consequently, after `pack_model`, repacking from
`mode1` to `mode2` and then from `mode2` back to `mode1` reproduces the
original packed buffers exactly. -/

theorem repack_roundtrip_preserves_packed_buffers
    (packMode mode2 : PackMode) (wbitsArg groupsizeArg : Nat) (method : String)
    (model : List (String × Layer)) (quantizers : List (String × QuantEntry))
    (hcap : 0 < wordCap wbitsArg)
    (hq : ∀ p ∈ quantizers, ∃ q s z g,
        p.2 = QuantEntry.full q s z g wbitsArg groupsizeArg ∧ ∀ x ∈ s, x ≠ 0)
    (hm : ∀ p ∈ model, ∃ lin, p.2 = Layer.linear lin ∧
        (List.lookup p.1 quantizers ≠ none → wordCap wbitsArg ∣ lin.weight.length)) :
    (repack_to_new_mode
        (pack_model packMode groupsizeArg wbitsArg method model quantizers).1
        packMode wbitsArg groupsizeArg mode2).map (fun nl => layerCodes nl.2) =
      ((pack_model packMode groupsizeArg wbitsArg method model quantizers).1).map
        (fun nl => layerCodes nl.2) ∧
    repack_to_new_mode
      (repack_to_new_mode
        (pack_model packMode groupsizeArg wbitsArg method model quantizers).1
        packMode wbitsArg groupsizeArg mode2)
      mode2 wbitsArg groupsizeArg packMode =
      (pack_model packMode groupsizeArg wbitsArg method model quantizers).1 := by
  constructor
  · simp only [pack_model, repack_to_new_mode, List.map_map]
    apply List.map_congr_left
    intro nl hnl
    obtain ⟨n, l⟩ := nl
    obtain ⟨lin, hlin, hdl⟩ := hm (n, l) hnl
    have hlin' : l = Layer.linear lin := hlin
    subst hlin'
    cases hlk : List.lookup n quantizers with
    | none =>
        simp only [Function.comp_apply,
          packModelEntry_none packMode quantizers n _ hlk]
        rfl
    | some e =>
        obtain ⟨q, s, z, g, he, hs⟩ := hq (n, e) (mem_of_lookup_eq_some hlk)
        have he' : e = QuantEntry.full q s z g wbitsArg groupsizeArg := he
        subst he'
        have hdvd : wordCap wbitsArg ∣ lin.weight.length := by
          apply hdl
          rw [hlk]
          simp
        simp only [Function.comp_apply,
          packModelEntry_full packMode quantizers n lin q s z g wbitsArg
            groupsizeArg hlk,
          repackEntry_packed_hit packMode wbitsArg groupsizeArg mode2 n
            (packLinear packMode wbitsArg s z groupsizeArg lin) rfl rfl]
        exact (packed_roundtrip_at packMode mode2 wbitsArg groupsizeArg s z lin
          hcap hs hdvd).2
  · simp only [pack_model, repack_to_new_mode, List.map_map]
    apply List.map_congr_left
    intro nl hnl
    obtain ⟨n, l⟩ := nl
    obtain ⟨lin, hlin, hdl⟩ := hm (n, l) hnl
    have hlin' : l = Layer.linear lin := hlin
    subst hlin'
    cases hlk : List.lookup n quantizers with
    | none =>
        simp only [Function.comp_apply,
          packModelEntry_none packMode quantizers n _ hlk]
        rfl
    | some e =>
        obtain ⟨q, s, z, g, he, hs⟩ := hq (n, e) (mem_of_lookup_eq_some hlk)
        have he' : e = QuantEntry.full q s z g wbitsArg groupsizeArg := he
        subst he'
        have hdvd : wordCap wbitsArg ∣ lin.weight.length := by
          apply hdl
          rw [hlk]
          simp
        have hrt := (packed_roundtrip_at packMode mode2 wbitsArg groupsizeArg
          s z lin hcap hs hdvd).1
        simp only [Function.comp_apply,
          packModelEntry_full packMode quantizers n lin q s z g wbitsArg
            groupsizeArg hlk,
          repackEntry_packed_hit packMode wbitsArg groupsizeArg mode2 n
            (packLinear packMode wbitsArg s z groupsizeArg lin) rfl rfl,
          repackEntry_packed_hit mode2 wbitsArg groupsizeArg packMode n
            (repackLayer wbitsArg groupsizeArg mode2
              (packLinear packMode wbitsArg s z groupsizeArg lin)) rfl rfl,
          hrt]

/-- Whether a quantizers entry still holds the full per-layer tuple. -/

theorem pack_model_overwrites_quantizers
    (packMode : PackMode) (groupsizeArg wbitsArg : Nat) (method : String)
    (model : List (String × Layer)) (quantizers : List (String × QuantEntry))
    (hmem : ∀ p ∈ quantizers, (model.map Prod.fst).contains p.1 = true)
    (hfull : ∀ p ∈ quantizers, ∃ q s z g w gs,
        p.2 = QuantEntry.full q s z g w gs) :
    (pack_model packMode groupsizeArg wbitsArg method model quantizers).2.1 =
      quantizers.map (fun p => (p.1, QuantEntry.packedRef p.2.obj)) ∧
    ((pack_model packMode groupsizeArg wbitsArg method model
        quantizers).2.1).filter (fun p => p.2.isFull) = [] := by
  have hmain :
      (pack_model packMode groupsizeArg wbitsArg method model quantizers).2.1 =
        quantizers.map (fun p => (p.1, QuantEntry.packedRef p.2.obj)) := by
    simp only [pack_model]
    apply List.map_congr_left
    intro p hp
    obtain ⟨q, s, z, g, w, gs, he⟩ := hfull p hp
    rw [if_pos (hmem p hp), he]
    rfl
  refine ⟨hmain, ?_⟩
  rw [hmain, List.filter_eq_nil_iff]
  intro p hp
  simp only [List.mem_map] at hp
  obtain ⟨x, _, hx⟩ := hp
  rw [← hx]
  simp [QuantEntry.isFull]

/-- Observable effects and collaborator calls of one pipeline run, in program
order. -/

theorem rankedIn_nil (lo hi : Nat) : RankedIn lo hi [] :=
  ⟨List.Pairwise.nil, fun e he => absurd he (List.not_mem_nil e)⟩

theorem rankedIn_append (lo mid hi : Nat) {l1 l2 : List Event}
    (hlm : lo ≤ mid) (hmh : mid ≤ hi)
    (h1 : RankedIn lo mid l1) (h2 : RankedIn mid hi l2) :
    RankedIn lo hi (l1 ++ l2) := by
  constructor
  · rw [List.pairwise_append]
    exact ⟨h1.1, h2.1, fun a ha b hb =>
      le_trans (h1.2 a ha).2 (h2.2 b hb).1⟩
  · intro e he
    rcases List.mem_append.mp he with h | h
    · exact ⟨(h1.2 e h).1, le_trans (h1.2 e h).2 hmh⟩
    · exact ⟨le_trans hlm (h2.2 e h).1, (h2.2 e h).2⟩

theorem rankedIn_mono (lo hi lo' hi' : Nat) {l : List Event}
    (hl : lo' ≤ lo) (hh : hi ≤ hi') (h : RankedIn lo hi l) :
    RankedIn lo' hi' l := by
  refine ⟨h.1, fun e he => ?_⟩
  exact ⟨le_trans hl (h.2 e he).1, le_trans (h.2 e he).2 hh⟩

theorem rankedIn_const (k : Nat) {l : List Event}
    (h : ∀ e ∈ l, stageRank e = k) : RankedIn k k l := by
  constructor
  · induction l with
    | nil => exact List.Pairwise.nil
    | cons x xs ih =>
        rw [List.pairwise_cons]
        constructor
        · intro b hb
          rw [h x (List.mem_cons_self _ _), h b (List.mem_cons_of_mem _ hb)]
        · exact ih fun e he => h e (List.mem_cons_of_mem _ he)
  · intro e he
    rw [h e he]
    exact ⟨le_rfl, le_rfl⟩

theorem rankedIn_quantTableStage (d : Bool) (a : Args) :
    RankedIn 3 3 (quantTableStage d a).1 := by
  apply rankedIn_const 3
  intro e he
  unfold quantTableStage at he
  cases hq : a.quant_directory with
  | none =>
      rw [hq] at he
      simp at he
  | some dir =>
      rw [hq] at he
      cases d with
      | false => simp at he
      | true =>
          simp at he
          subst he
          rfl

theorem rankedIn_saveStage (d : Bool) (a : Args) :
    RankedIn 4 4 (saveStage d a).1 := by
  apply rankedIn_const 4
  intro e he
  unfold saveStage at he
  by_cases hc : a.observe = false ∧ a.save ≠ ""
  · rw [if_pos hc] at he
    cases d with
    | true =>
        simp at he
        rcases he with rfl | rfl | rfl | rfl <;> rfl
    | false =>
        simp at he
        rcases he with rfl | rfl <;> rfl
  · rw [if_neg hc] at he
    simp at he

theorem rankedIn_evalStage (hA : Bool) (a : Args)
    (m : List (String × Layer)) : RankedIn 5 5 (evalStage hA a m).1 := by
  apply rankedIn_const 5
  intro e he
  unfold evalStage eval_model at he
  cases hev : a.eval with
  | false =>
      rw [hev] at he
      simp at he
  | true =>
      rw [hev] at he
      by_cases hc : hA = false ∧ a.pack_mode = PackMode.GEMM
      · rw [if_pos hc] at he
        simp at he
        rcases he with rfl | rfl | rfl <;> rfl
      · rw [if_neg hc] at he
        simp at he
        subst he
        rfl

theorem rankedIn_exportStage (a : Args) (m : List (String × Layer))
    (verifyErr : ℚ) : RankedIn 5 6 (exportStage a m verifyErr).1 := by
  by_cases he : a.export_onnx = ""
  · have h0 : (exportStage a m verifyErr).1 = [] := by
      simp [exportStage, he]
    rw [h0]
    exact rankedIn_nil 5 6
  · by_cases hc : a.pack_mode = PackMode.ORT
    · have h1 : (exportStage a m verifyErr).1 =
        [Event.exportArtifact a.export_onnx, Event.exportTokenizer a.export_onnx,
         Event.verifyReport verifyErr (decide (verifyErr < 1 / 100))] := by
        simp [exportStage, export_onnx, he, hc]
      rw [h1]
      apply rankedIn_mono 6 6 5 6 (by omega) le_rfl
      apply rankedIn_const 6
      intro e he2
      simp at he2
      rcases he2 with rfl | rfl | rfl <;> rfl
    · have h1 : (exportStage a m verifyErr).1 =
        [Event.repack a.pack_mode PackMode.ORT,
         Event.exportArtifact a.export_onnx, Event.exportTokenizer a.export_onnx,
         Event.verifyReport verifyErr (decide (verifyErr < 1 / 100))] := by
        simp [exportStage, export_onnx, he, hc]
      rw [h1]
      constructor
      · simp [List.pairwise_cons, stageRank]
      · intro e he2
        simp at he2
        rcases he2 with rfl | rfl | rfl | rfl <;> simp [stageRank]

theorem rankedIn_serveStage (a : Args) : RankedIn 7 7 (serveStage a) := by
  apply rankedIn_const 7
  intro e he
  unfold serveStage at he
  cases hu : a.use_plugin with
  | false =>
      rw [hu] at he
      simp at he
  | true =>
      rw [hu] at he
      simp at he
      subst he
      rfl

theorem rankedIn_safetensorsStage (a : Args) :
    RankedIn 8 8 (safetensorsStage a) := by
  apply rankedIn_const 8
  intro e he
  unfold safetensorsStage at he
  by_cases hc : a.observe = false ∧ a.save_safetensors ≠ ""
  · rw [if_pos hc] at he
    simp at he
    subst he
    rfl
  · rw [if_neg hc] at he
    simp at he

theorem rankedIn_runStages (hA : Bool) (a : Args)
    (m : List (String × Layer)) (d : Bool) (verifyErr : ℚ) :
    RankedIn 3 8 (runStages hA a m d verifyErr).1 := by
  have hq := rankedIn_quantTableStage d a
  have hs := rankedIn_saveStage d a
  unfold runStages
  rcases hqt : quantTableStage d a with ⟨qevs, qerr⟩
  rw [hqt] at hq
  have hq1 : RankedIn 3 3 qevs := hq
  rcases hst : saveStage d a with ⟨sevs, serr⟩
  rw [hst] at hs
  have hs1 : RankedIn 4 4 sevs := hs
  cases qerr with
  | some e =>
      show RankedIn 3 8 qevs
      exact rankedIn_mono 3 3 3 8 le_rfl (by omega) hq1
  | none =>
      cases serr with
      | some e =>
          show RankedIn 3 8 (qevs ++ sevs)
          exact rankedIn_append 3 3 8 le_rfl (by omega) hq1
            (rankedIn_mono 4 4 3 8 (by omega) (by omega) hs1)
      | none =>
          show RankedIn 3 8 (qevs ++ sevs ++ (evalStage hA a m).1 ++
            (exportStage a (evalStage hA a m).2 verifyErr).1 ++
            serveStage a ++ safetensorsStage a)
          have h34 : RankedIn 3 4 (qevs ++ sevs) :=
            rankedIn_append 3 3 4 le_rfl (by omega) hq1
              (rankedIn_mono 4 4 3 4 (by omega) le_rfl hs1)
          have h35 : RankedIn 3 5 (qevs ++ sevs ++ (evalStage hA a m).1) :=
            rankedIn_append 3 4 5 (by omega) (by omega) h34
              (rankedIn_mono 5 5 4 5 (by omega) le_rfl
                (rankedIn_evalStage hA a m))
          have h36 : RankedIn 3 6 (qevs ++ sevs ++ (evalStage hA a m).1 ++
              (exportStage a (evalStage hA a m).2 verifyErr).1) :=
            rankedIn_append 3 5 6 (by omega) (by omega) h35
              (rankedIn_exportStage a _ verifyErr)
          have h37 : RankedIn 3 7 (qevs ++ sevs ++ (evalStage hA a m).1 ++
              (exportStage a (evalStage hA a m).2 verifyErr).1 ++
              serveStage a) :=
            rankedIn_append 3 6 7 (by omega) (by omega) h36
              (rankedIn_mono 7 7 6 7 (by omega) le_rfl (rankedIn_serveStage a))
          exact rankedIn_append 3 7 8 (by omega) (by omega) h37
            (rankedIn_mono 8 8 7 8 (by omega) le_rfl
              (rankedIn_safetensorsStage a))

theorem rankedIn_run (hA : Bool) (fm qm : List (String × Layer))
    (cr : List (String × QuantEntry)) (verifyErr : ℚ) (a : Args) :
    RankedIn 0 8 (run hA fm qm cr verifyErr a).1 := by
  unfold run
  split
  · exact rankedIn_nil 0 8
  · show RankedIn 0 8
      ((if a.load ≠ "" then [Event.loadQuant a.load]
        else [Event.loadPretrained a.model]) ++
       (if decide (a.load = "" ∧ a.wbits < 16 ∧ a.nearest = false) = true
        then [Event.calibrate, Event.pack] else []) ++
       (runStages hA a
         (if decide (a.load = "" ∧ a.wbits < 16 ∧ a.nearest = false) = true
          then (pack_model a.pack_mode a.groupsize a.wbits a.method
            (if a.load ≠ "" then qm else fm) cr).1
          else (if a.load ≠ "" then qm else fm))
         (decide (a.load = "" ∧ a.wbits < 16 ∧ a.nearest = false))
         verifyErr).1)
    have hload : RankedIn 0 0
        (if a.load ≠ "" then [Event.loadQuant a.load]
         else [Event.loadPretrained a.model]) := by
      apply rankedIn_const 0
      intro e he
      split at he <;>
        · simp at he
          subst he
          rfl
    have hquant : RankedIn 1 2
        (if decide (a.load = "" ∧ a.wbits < 16 ∧ a.nearest = false) = true
         then [Event.calibrate, Event.pack] else []) := by
      split
      · constructor
        · simp [List.pairwise_cons, stageRank]
        · intro e he
          simp at he
          rcases he with rfl | rfl <;> simp [stageRank]
      · exact rankedIn_mono 1 1 1 2 le_rfl (by omega) (rankedIn_nil 1 1)
    have h02 : RankedIn 0 2 _ :=
      rankedIn_append 0 1 2 (by omega) (by omega)
        (rankedIn_mono 0 0 0 1 le_rfl (by omega) hload) hquant
    exact rankedIn_append 0 2 8 (by omega) (by omega) h02
      (rankedIn_mono 3 8 2 8 (by omega) le_rfl (rankedIn_runStages hA a _ _ verifyErr))

/-- Classifies warning events. -/

theorem low_rank_not_mem_runStages (hA : Bool) (a : Args)
    (m : List (String × Layer)) (d : Bool) (v : ℚ) (e : Event)
    (he : stageRank e < 3) : e ∉ (runStages hA a m d v).1 := by
  intro hmem
  have h := ((rankedIn_runStages hA a m d v).2 e hmem).1
  omega

theorem quantTableStage_err (d : Bool) (a : Args) :
    (quantTableStage d a).2 = none ∨
      (quantTableStage d a).2 = some (RunError.nameError "quantizers") := by
  unfold quantTableStage
  cases a.quant_directory with
  | none => left; rfl
  | some dir =>
      cases d with
      | true => left; rfl
      | false => right; rfl

theorem saveStage_err (d : Bool) (a : Args) :
    (saveStage d a).2 = none ∨
      (saveStage d a).2 = some (RunError.nameError "quant_info") := by
  unfold saveStage
  by_cases hc : a.observe = false ∧ a.save ≠ ""
  · rw [if_pos hc]
    cases d with
    | true => left; rfl
    | false => right; rfl
  · rw [if_neg hc]
    left
    rfl

theorem runStages_err (hA : Bool) (a : Args) (m : List (String × Layer))
    (d : Bool) (v : ℚ) :
    (runStages hA a m d v).2 = none ∨
      (runStages hA a m d v).2 = some (RunError.nameError "quantizers") ∨
      (runStages hA a m d v).2 = some (RunError.nameError "quant_info") := by
  have h1 := quantTableStage_err d a
  have h2 := saveStage_err d a
  unfold runStages
  rcases hqt : quantTableStage d a with ⟨qevs, qerr⟩
  rw [hqt] at h1
  rcases hst : saveStage d a with ⟨sevs, serr⟩
  rw [hst] at h2
  cases qerr with
  | some e =>
      simp only at h1
      rcases h1 with h1 | h1
      · exact absurd h1 (by simp)
      · right; left
        exact h1
  | none =>
      cases serr with
      | some e =>
          simp only at h2
          rcases h2 with h2 | h2
          · exact absurd h2 (by simp)
          · right; right
            exact h2
      | none => left; rfl

theorem run_err_shape (hA : Bool) (fm qm : List (String × Layer))
    (cr : List (String × QuantEntry)) (v : ℚ) (a : Args)
    (h : ¬(a.load = "" ∧ a.model = "")) :
    (run hA fm qm cr v a).2 = none ∨
      (run hA fm qm cr v a).2 = some (RunError.nameError "quantizers") ∨
      (run hA fm qm cr v a).2 = some (RunError.nameError "quant_info") := by
  unfold run
  rw [if_neg h]
  exact runStages_err hA a _ _ v

/-- C8 (amended): the stages execute in the fixed order LOAD, CALIBRATE, PACK,
quant-table export, SAVE of model weights/tokenizer/metadata, EVAL, EXPORT,
SERVE, and last the safetensors persistence; in particular the model, tokenizer
and metadata writes of SAVE precede EVAL, EXPORT and SERVE, while the
safetensors write follows SERVE. -/

theorem run_stage_order (hA : Bool) (fm qm : List (String × Layer))
    (cr : List (String × QuantEntry)) (verifyErr : ℚ) (a : Args) :
    ((run hA fm qm cr verifyErr a).1).Pairwise
      (fun e1 e2 => stageRank e1 ≤ stageRank e2) :=
  (rankedIn_run hA fm qm cr verifyErr a).1

/-- C6: with neither a pretrained model source nor a quantized checkpoint
specified, `run` stops at the LOAD stage with the configuration error and no
stage executes. -/

theorem run_config_error_when_no_source (hA : Bool)
    (fm qm : List (String × Layer)) (cr : List (String × QuantEntry)) (v : ℚ)
    (a : Args) (hload : a.load = "") (hmodel : a.model = "") :
    run hA fm qm cr v a = ([], some RunError.configError) := by
  unfold run
  rw [if_pos ⟨hload, hmodel⟩]

theorem saveStage_observe (d : Bool) (a : Args) (hobs : a.observe = true) :
    saveStage d a = ([], none) := by
  unfold saveStage
  rw [if_neg (by simp [hobs])]

theorem safetensorsStage_observe (a : Args) (hobs : a.observe = true) :
    safetensorsStage a = [] := by
  unfold safetensorsStage
  rw [if_neg (by simp [hobs])]

theorem mem_runStages (hA : Bool) (a : Args) (m : List (String × Layer))
    (d : Bool) (v : ℚ) (e : Event) (he : e ∈ (runStages hA a m d v).1) :
    e ∈ (quantTableStage d a).1 ∨ e ∈ (saveStage d a).1 ∨
      e ∈ (evalStage hA a m).1 ∨
      e ∈ (exportStage a (evalStage hA a m).2 v).1 ∨
      e ∈ serveStage a ∨ e ∈ safetensorsStage a := by
  unfold runStages at he
  rcases hqt : quantTableStage d a with ⟨qevs, qerr⟩
  rw [hqt] at he
  rcases hst : saveStage d a with ⟨sevs, serr⟩
  rw [hst] at he
  cases qerr with
  | some e' =>
      have he' : e ∈ qevs := he
      exact Or.inl he'
  | none =>
      cases serr with
      | some e' =>
          have he' : e ∈ qevs ++ sevs := he
          simp only [List.mem_append] at he'
          tauto
      | none =>
          have he' : e ∈ qevs ++ sevs ++ (evalStage hA a m).1 ++
              (exportStage a (evalStage hA a m).2 v).1 ++ serveStage a ++
              safetensorsStage a := he
          simp only [List.mem_append] at he'
          tauto

theorem mem_runStages_observe (hA : Bool) (a : Args)
    (m : List (String × Layer)) (d : Bool) (v : ℚ) (hobs : a.observe = true)
    (e : Event) (he : e ∈ (runStages hA a m d v).1) :
    stageRank e = 3 ∨ (5 ≤ stageRank e ∧ stageRank e ≤ 7) := by
  rcases mem_runStages hA a m d v e he with h | h | h | h | h | h
  · have hb := (rankedIn_quantTableStage d a).2 e h
    omega
  · rw [saveStage_observe d a hobs] at h
    simp at h
  · have hb := (rankedIn_evalStage hA a m).2 e h
    omega
  · have hb := (rankedIn_exportStage a (evalStage hA a m).2 v).2 e h
    omega
  · have hb := (rankedIn_serveStage a).2 e h
    omega
  · rw [safetensorsStage_observe a hobs] at h
    simp at h

/-- C7 (amended): with both a pretrained source and a quantized checkpoint
specified, `run` does not fail: the quantized checkpoint takes precedence
(the LOAD event is the quantized load, no pretrained load occurs), and no
configuration error is raised. -/

theorem load_takes_precedence (hA : Bool) (fm qm : List (String × Layer))
    (cr : List (String × QuantEntry)) (v : ℚ) (a : Args)
    (hl : a.load ≠ "") (hm : a.model ≠ "") :
    (run hA fm qm cr v a).1.head? = some (Event.loadQuant a.load) ∧
    (run hA fm qm cr v a).1.filter Event.isLoadPretrained = [] ∧
    (run hA fm qm cr v a).2 ≠ some RunError.configError := by
  have hnot : ¬(a.load = "" ∧ a.model = "") := fun hc => hl hc.1
  refine ⟨?_, ?_, ?_⟩
  · unfold run
    rw [if_neg hnot]
    simp only [if_pos hl]
    simp
  · rw [List.filter_eq_nil_iff]
    intro e he
    unfold run at he
    rw [if_neg hnot] at he
    simp only [List.mem_append] at he
    rcases he with (h1 | h1) | h1
    · rw [if_pos hl] at h1
      simp at h1
      subst h1
      simp [Event.isLoadPretrained]
    · revert h1
      split
      · intro h1
        simp at h1
        rcases h1 with rfl | rfl <;> simp [Event.isLoadPretrained]
      · intro h1
        simp at h1
    · intro hP
      cases e <;> simp [Event.isLoadPretrained] at hP
      exact low_rank_not_mem_runStages _ _ _ _ _ _ (by simp [stageRank]) h1
  · rcases run_err_shape hA fm qm cr v a hnot with h | h | h <;> rw [h] <;> simp

/-- C5: `export_onnx` first repacks the model to the ORT export mode exactly
when it is not already in that mode, then produces the export artifact; the
numeric-consistency check is advisory: it reports the max-abs-error magnitude
together with whether it is below the 1e-2 tolerance, has no failing outcome,
and the artifact event is present in every trace. -/

theorem export_onnx_advisory (mode : PackMode) (w g : Nat) (path : String)
    (m : List (String × Layer)) (err : ℚ) :
    (export_onnx mode w g path m err).1 =
      (if mode = PackMode.ORT then ([] : List Event)
       else [Event.repack mode PackMode.ORT]) ++
      [Event.exportArtifact path, Event.exportTokenizer path,
       Event.verifyReport err (decide (err < 1 / 100))] ∧
    (export_onnx mode w g path m err).2 =
      (if mode = PackMode.ORT then m
       else repack_to_new_mode m mode w g PackMode.ORT) ∧
    Event.exportArtifact path ∈ (export_onnx mode w g path m err).1 ∧
    Event.verifyReport err (decide (err < 1 / 100)) ∈
      (export_onnx mode w g path m err).1 := by
  by_cases hc : mode = PackMode.ORT <;> simp [export_onnx, hc]

/-- C4: whenever the configured pack mode lacks a compatible inference engine
(pack mode GEMM without the AWQ engine, the only engine the code probes),
`eval_model` emits exactly one warning, transparently repacks the model to the
GPTQ fallback mode, and still completes the smoke-test generation; the
embedding of `eval_model` has no failing outcome. -/

theorem eval_model_engine_fallback (hA : Bool) (mode : PackMode) (w g : Nat)
    (m : List (String × Layer))
    (h : has_inference_engine hA mode = false) :
    (eval_model hA mode w g m).1.countP Event.isWarn = 1 ∧
    Event.repack mode PackMode.GPTQ ∈ (eval_model hA mode w g m).1 ∧
    Event.generate ∈ (eval_model hA mode w g m).1 ∧
    (eval_model hA mode w g m).2 =
      repack_to_new_mode m mode w g PackMode.GPTQ := by
  have hc : hA = false ∧ mode = PackMode.GEMM := by
    cases mode <;> cases hA <;> simp [has_inference_engine] at h <;>
      exact ⟨rfl, rfl⟩
  unfold eval_model
  rw [if_pos hc]
  refine ⟨rfl, ?_, ?_, rfl⟩
  · simp
  · simp

theorem calpack_mem_run (hA : Bool) (fm qm : List (String × Layer))
    (cr : List (String × QuantEntry)) (v : ℚ) (a : Args) (e : Event)
    (hce : e = Event.calibrate ∨ e = Event.pack) :
    e ∈ (run hA fm qm cr v a).1 ↔
      (a.model ≠ "" ∧ a.load = "" ∧ a.wbits < 16 ∧ a.nearest = false) := by
  unfold run
  by_cases h : a.load = "" ∧ a.model = ""
  · rw [if_pos h]
    constructor
    · intro hmem
      simp at hmem
    · intro hP
      exact absurd h.2 hP.1
  · rw [if_neg h]
    simp only [List.mem_append]
    constructor
    · intro hmem
      rcases hce with rfl | rfl <;>
      · rcases hmem with (h1 | h1) | h1
        · exfalso
          revert h1
          split <;> simp
        · revert h1
          split
          · rename_i hd
            intro h1
            have hP := of_decide_eq_true hd
            exact ⟨fun hmm => h ⟨hP.1, hmm⟩, hP⟩
          · intro h1
            simp at h1
        · exact absurd h1
            (low_rank_not_mem_runStages _ _ _ _ _ _ (by simp [stageRank]))
    · intro hP
      left
      right
      rw [if_pos (decide_eq_true ⟨hP.2.1, hP.2.2.1, hP.2.2.2⟩)]
      rcases hce with rfl | rfl <;> simp

/-- C2 (amended): the CALIBRATE stage executes exactly when a fresh model is
loaded, the target bit width is below 16, and nearest-rounding-only mode is
off; the PACK stage executes exactly under the same condition — in
particular, with nearest-rounding-only mode configured, both CALIBRATE and
PACK are skipped. -/

theorem calibrate_pack_exactly_when (hA : Bool)
    (fm qm : List (String × Layer)) (cr : List (String × QuantEntry)) (v : ℚ)
    (a : Args) :
    (Event.calibrate ∈ (run hA fm qm cr v a).1 ↔
      (a.model ≠ "" ∧ a.load = "" ∧ a.wbits < 16 ∧ a.nearest = false)) ∧
    (Event.pack ∈ (run hA fm qm cr v a).1 ↔
      (a.model ≠ "" ∧ a.load = "" ∧ a.wbits < 16 ∧ a.nearest = false)) :=
  ⟨calpack_mem_run hA fm qm cr v a Event.calibrate (Or.inl rfl),
   calpack_mem_run hA fm qm cr v a Event.pack (Or.inr rfl)⟩

/-- C3 (amended): with the observe flag set, the SAVE-stage persistence is
fully suppressed — no model-weight, tokenizer, metadata-JSON or safetensors
write appears in the trace; (the quantization-table export, by contrast, is
gated only by quant_directory, not by observe). -/

theorem observe_suppresses_save_writes (hA : Bool)
    (fm qm : List (String × Layer)) (cr : List (String × QuantEntry)) (v : ℚ)
    (a : Args) (hobs : a.observe = true) :
    (run hA fm qm cr v a).1.filter Event.isSaveWrite = [] := by
  rw [List.filter_eq_nil_iff]
  intro e he
  suffices hr : stageRank e ≠ 4 ∧ stageRank e ≠ 8 by
    cases e <;> simp [Event.isSaveWrite, stageRank] at hr ⊢
  unfold run at he
  split at he
  · simp at he
  · simp only [List.mem_append] at he
    rcases he with (h1 | h1) | h1
    · revert h1
      split <;> intro h1 <;> simp at h1 <;> subst h1 <;> simp [stageRank]
    · revert h1
      split <;> intro h1 <;> simp at h1
      rcases h1 with rfl | rfl <;> simp [stageRank]
    · rcases mem_runStages_observe hA a _ _ v hobs e h1 with hh | hh <;> omega

theorem runStages_noQuant (hA : Bool) (a : Args) (m : List (String × Layer))
    (v : ℚ)
    (htrig : a.quant_directory ≠ none ∨ (a.save ≠ "" ∧ a.observe = false)) :
    (runStages hA a m false v).2 =
      some (RunError.nameError
        (if a.quant_directory.isSome then "quantizers" else "quant_info")) ∧
    (runStages hA a m false v).1.filter Event.isMetadataWrite = [] := by
  cases hqd : a.quant_directory with
  | some dir =>
      have hq : quantTableStage false a =
          ([], some (RunError.nameError "quantizers")) := by
        unfold quantTableStage
        rw [hqd]
        rfl
      unfold runStages
      rw [hq]
      exact ⟨rfl, rfl⟩
  | none =>
      rcases htrig with h | h
      · exact absurd hqd h
      · have hq : quantTableStage false a = ([], none) := by
          unfold quantTableStage
          rw [hqd]
        have hsv : saveStage false a =
            ([Event.saveModel a.save, Event.saveTokenizer a.save],
              some (RunError.nameError "quant_info")) := by
          unfold saveStage
          rw [if_pos ⟨h.2, h.1⟩]
          rfl
        unfold runStages
        rw [hq, hsv]
        exact ⟨rfl, rfl⟩

/-- C9: on every run that loads a model but skips the calibrate-and-pack
branch, setting quant_directory, or setting save with observe unset, makes
`run` stop with the unbound-local error on `quantizers` respectively
`quant_info` (never defined on that path), and no quantization metadata — the
quant table or the two metadata documents — is written. -/

theorem skipped_quant_unbound_error (hA : Bool)
    (fm qm : List (String × Layer)) (cr : List (String × QuantEntry)) (v : ℚ)
    (a : Args)
    (hsrc : a.load ≠ "" ∨ a.model ≠ "")
    (hskip : ¬(a.load = "" ∧ a.wbits < 16 ∧ a.nearest = false))
    (htrig : a.quant_directory ≠ none ∨ (a.save ≠ "" ∧ a.observe = false)) :
    (run hA fm qm cr v a).2 =
      some (RunError.nameError
        (if a.quant_directory.isSome then "quantizers" else "quant_info")) ∧
    (run hA fm qm cr v a).1.filter Event.isMetadataWrite = [] := by
  have hnot : ¬(a.load = "" ∧ a.model = "") := by
    intro hc
    rcases hsrc with hx | hx
    · exact hx hc.1
    · exact hx hc.2
  have hdq : decide (a.load = "" ∧ a.wbits < 16 ∧ a.nearest = false) = false :=
    decide_eq_false hskip
  have hrs := runStages_noQuant hA a (if a.load ≠ "" then qm else fm) v htrig
  constructor
  · unfold run
    rw [if_neg hnot]
    simp only [hdq]
    exact hrs.1
  · unfold run
    rw [if_neg hnot]
    simp only [hdq]
    show ((if a.load ≠ "" then [Event.loadQuant a.load]
        else [Event.loadPretrained a.model]) ++ ([] : List Event) ++
        (runStages hA a (if a.load ≠ "" then qm else fm) false v).1).filter
          Event.isMetadataWrite = []
    rw [List.filter_append, List.filter_append, hrs.2]
    by_cases hl : a.load ≠ ""
    · rw [if_pos hl]
      rfl
    · rw [if_neg hl]
      rfl

/-- A concrete two-layer toy model: first layer weights. -/

theorem nearest_skips_pack_counterexample :
    argsNearest.nearest = true ∧ argsNearest.model ≠ "" ∧
    argsNearest.load = "" ∧ argsNearest.wbits < 16 ∧
    (run false [] [] [] 0 argsNearest).1 = [Event.loadPretrained "m"] ∧
    Event.pack ∉ (run false [] [] [] 0 argsNearest).1 ∧
    Event.calibrate ∉ (run false [] [] [] 0 argsNearest).1 := by
  decide

/-- C3 counterexample: with observe set but quant_directory configured, the
run still writes the quantization table — a filesystem write not suppressed
by the dry-run flag. -/

theorem observe_quant_table_write_counterexample :
    argsObserve.observe = true ∧
    Event.exportQuantTable "qdir" ∈ (run false [] [] [] 0 argsObserve).1 := by
  decide

/-- C7 counterexample: with both a pretrained source and a quantized
checkpoint specified, `run` raises no error at all — it silently loads the
quantized checkpoint, against the claimed ConfigError. -/

theorem both_sources_no_config_error_counterexample :
    argsBoth.model ≠ "" ∧ argsBoth.load ≠ "" ∧
    run false [] [] [] 0 argsBoth = ([Event.loadQuant "q"], none) := by
  decide

/-- C8 counterexample: with the chat plugin and a safetensors target enabled,
the safetensors persistence of the SAVE stage executes after SERVE, so the
trace is not ordered by the spec's claimed stage order. -/

theorem safetensors_after_serve_counterexample :
    (run false [] [] [] 0 argsSafet).1 =
      [Event.loadQuant "q", Event.serve, Event.saveSafetensors "st"] ∧
    ¬ ((run false [] [] [] 0 argsSafet).1).Pairwise
        (fun e1 e2 => specStageRank e1 ≤ specStageRank e2) := by
  decide

/-- C1 witness: the round trip evaluated on the concrete two-layer model. -/

theorem repack_roundtrip_witness :
    (repack_to_new_mode
        (pack_model PackMode.GPTQ 8 4 "gptq" modelW quantizersW).1
        PackMode.GPTQ 4 8 PackMode.GEMM).map (fun nl => layerCodes nl.2) =
      ((pack_model PackMode.GPTQ 8 4 "gptq" modelW quantizersW).1).map
        (fun nl => layerCodes nl.2) ∧
    repack_to_new_mode
      (repack_to_new_mode
        (pack_model PackMode.GPTQ 8 4 "gptq" modelW quantizersW).1
        PackMode.GPTQ 4 8 PackMode.GEMM)
      PackMode.GEMM 4 8 PackMode.GPTQ =
      (pack_model PackMode.GPTQ 8 4 "gptq" modelW quantizersW).1 :=
  repack_roundtrip_preserves_packed_buffers PackMode.GPTQ PackMode.GEMM 4 8
    "gptq" modelW quantizersW (by decide)
    (by
      intro p hp
      cases hp with
      | head => exact ⟨⟨0⟩, [1], [0], none, rfl, by with_unfolding_all decide⟩
      | tail _ hp =>
          cases hp with
          | head =>
              exact ⟨⟨1⟩, [1/2], [3], none, rfl, by with_unfolding_all decide⟩
          | tail _ hp => cases hp)
    (by
      intro p hp
      cases hp with
      | head => exact ⟨linA, rfl, fun _ => by decide⟩
      | tail _ hp =>
          cases hp with
          | head => exact ⟨linB, rfl, fun _ => by decide⟩
          | tail _ hp => cases hp)

/-- C10 witness: the quantizers mutation evaluated on the concrete model. -/

theorem pack_model_overwrites_witness :
    (pack_model PackMode.GPTQ 8 4 "gptq" modelW quantizersW).2.1 =
      quantizersW.map (fun p => (p.1, QuantEntry.packedRef p.2.obj)) ∧
    ((pack_model PackMode.GPTQ 8 4 "gptq" modelW
        quantizersW).2.1).filter (fun p => p.2.isFull) = [] :=
  pack_model_overwrites_quantizers PackMode.GPTQ 8 4 "gptq" modelW quantizersW
    (by decide)
    (by
      intro p hp
      cases hp with
      | head => exact ⟨⟨0⟩, [1], [0], none, 4, 8, rfl⟩
      | tail _ hp =>
          cases hp with
          | head => exact ⟨⟨1⟩, [1/2], [3], none, 4, 8, rfl⟩
          | tail _ hp => cases hp)

/-- C4 witness: the fallback evaluated at GEMM without the AWQ engine. -/

theorem eval_model_engine_fallback_witness :
    (eval_model false PackMode.GEMM 4 128 []).1.countP Event.isWarn = 1 ∧
    Event.repack PackMode.GEMM PackMode.GPTQ ∈
      (eval_model false PackMode.GEMM 4 128 []).1 ∧
    Event.generate ∈ (eval_model false PackMode.GEMM 4 128 []).1 ∧
    (eval_model false PackMode.GEMM 4 128 []).2 =
      repack_to_new_mode [] PackMode.GEMM 4 128 PackMode.GPTQ :=
  eval_model_engine_fallback false PackMode.GEMM 4 128 [] (by decide)

/-- C6 witness: the configuration error evaluated at the empty sources. -/

theorem run_config_error_witness :
    run false [] [] [] 0 argsNone = ([], some RunError.configError) :=
  run_config_error_when_no_source false [] [] [] 0 argsNone rfl rfl

/-- C7 witness (amended): checkpoint precedence evaluated at both sources. -/

theorem load_takes_precedence_witness :
    (run false [] [] [] 0 argsBoth).1.head? = some (Event.loadQuant "q") ∧
    (run false [] [] [] 0 argsBoth).1.filter Event.isLoadPretrained = [] ∧
    (run false [] [] [] 0 argsBoth).2 ≠ some RunError.configError :=
  load_takes_precedence false [] [] [] 0 argsBoth (by decide) (by decide)

/-- C3 witness (amended): the suppressed save writes evaluated with observe
set. -/

theorem observe_suppresses_save_writes_witness :
    (run false [] [] [] 0 argsObserve).1.filter Event.isSaveWrite = [] :=
  observe_suppresses_save_writes false [] [] [] 0 argsObserve rfl

/-- C9 witness: the unbound-local stop evaluated on a checkpoint load with a
quant directory set. -/

theorem skipped_quant_unbound_error_witness :
    (run false [] [] [] 0 argsQd).2 =
      some (RunError.nameError "quantizers") ∧
    (run false [] [] [] 0 argsQd).1.filter Event.isMetadataWrite = [] :=
  skipped_quant_unbound_error false [] [] [] 0 argsQd (Or.inl (by decide))
    (by decide) (Or.inl (by decide))

end QLLM
